import Mathlib

/-!
Verification development for the muta repository's Python components:
the `pymuta` JSON-RPC client library
(`src/components/jsonrpc/pymuta/pymuta/__init__.py`) and the
dependency-duplication checker (`src/devtools/scripts/check_dup_dep.py`).

The embedding is shallow: JSON values are an inductive type, the chain
node is an oracle mapping a request counter, a wire method name and a
parameter list to the parsed JSON response body, and Python exceptions
(`KeyError`, `UnboundLocalError`, `ValueError`, `OverflowError`,
`TypeError`) are modelled with `Except String`.  External libraries at
the repository boundary (`eth_utils.keccak`, `eth_abi`, `eth_keys`
signing, protobuf serialization, `requests`) are abstracted as function
parameters.
-/

/-- A parsed JSON value, as produced by `resp.json()`. -/
inductive Value where
  | vNull : Value
  | vBool : Bool → Value
  | vNum : Int → Value
  | vStr : String → Value
  | vArr : List Value → Value
  | vObj : List (String × Value) → Value

/-- Dictionary lookup `d[k]` on the field list of a JSON object
(objects are modelled with distinct keys, so first match suffices). -/
def lookupField : List (String × Value) → String → Option Value
  | [], _ => none
  | (k', v) :: rest, k => if k' = k then some v else lookupField rest k

/-- `v[k]` for a JSON value: `some` when `v` is an object carrying key
`k`, `none` otherwise (a `none` corresponds to Python raising
`KeyError`, or `TypeError` on a non-dict). -/
def getField (v : Value) (k : String) : Option Value :=
  match v with
  | .vObj fs => lookupField fs k
  | _ => none

/-- Python truthiness (`if r:`) of a JSON value: `None`, `False`, `0`,
`""`, `[]` and an empty object are falsy, everything else truthy. -/
def truthy : Value → Bool
  | .vNull => false
  | .vBool b => b
  | .vNum n => n != 0
  | .vStr s => !s.isEmpty
  | .vArr xs => !xs.isEmpty
  | .vObj fs => !fs.isEmpty

/-- Value of a hexadecimal digit character, `none` for non-digits. -/
def hexDigit? (c : Char) : Option Nat :=
  if '0' ≤ c ∧ c ≤ '9' then some (c.toNat - '0'.toNat)
  else if 'a' ≤ c ∧ c ≤ 'f' then some (c.toNat - 'a'.toNat + 10)
  else if 'A' ≤ c ∧ c ≤ 'F' then some (c.toNat - 'A'.toNat + 10)
  else none

/-- Accumulating hex-digit parse of a character list. -/
def hexDigitsToNat? : List Char → Nat → Option Nat
  | [], acc => some acc
  | c :: cs, acc =>
    match hexDigit? c with
    | some d => hexDigitsToNat? cs (acc * 16 + d)
    | none => none

/-- `eth_utils.remove_0x_prefix`: drop a leading `0x`/`0X` if present. -/
def strip0x (s : String) : String :=
  match s.toList with
  | '0' :: c :: rest => if c = 'x' ∨ c = 'X' then String.mk rest else s
  | _ => s

/-- Python `int(s, 16)`: optional `0x` prefix, at least one hex digit;
`none` corresponds to `ValueError`. -/
def intHex? (s : String) : Option Nat :=
  let t := strip0x s
  if t.isEmpty then none else hexDigitsToNat? t.toList 0

/-- `bytes.fromhex`: an even-length string of hex digits decoded to a
byte list; `none` corresponds to `ValueError`. -/
def bytesFromHex? : List Char → Option (List Nat)
  | [] => some []
  | [_] => none
  | c1 :: c2 :: rest =>
    match hexDigit? c1, hexDigit? c2, bytesFromHex? rest with
    | some a, some b, some bs => some ((a * 16 + b) :: bs)
    | _, _, _ => none

/-- Lower-case hex character for a value below 16. -/
def hexChar (n : Nat) : Char :=
  if n < 10 then Char.ofNat ('0'.toNat + n) else Char.ofNat ('a'.toNat + n - 10)

/-- Two-character lower-case hex rendering of one byte (`bytes.hex()`
per byte). -/
def byteToHex (b : Nat) : String :=
  String.mk [hexChar (b / 16 % 16), hexChar (b % 16)]

/-- `bytes.hex()`: lower-case hex rendering of a byte list. -/
def bytesToHex (bs : List Nat) : String :=
  String.join (bs.map byteToHex)

/-- `n.to_bytes(len, byteorder='big')` for `n < 256 ^ len`: big-endian
byte list of the given length. -/
def toBytesBE : Nat → Nat → List Nat
  | 0, _ => []
  | n + 1, v => toBytesBE n (v / 256) ++ [v % 256]

/-- Big-endian byte list read back as a natural number. -/
def fromBytesBE (bs : List Nat) : Nat :=
  bs.foldl (fun a b => a * 256 + b) 0

/-- The chain node as an oracle: given the index of the request in the
session (the node is stateful over time), the wire method name and the
parameter list, it yields the parsed JSON body of the HTTP response. -/
abbrev Node := Nat → String → List Value → Value

namespace Client

/-- `Client.send`: POST the JSON-RPC request and return
`resp.json()['result']` unconditionally; a body without a `result` key
raises `KeyError`.  No other key of the body (in particular no `error`
key) is ever inspected. -/
def send (node : Node) (t : Nat) (method : String) (params : List Value) :
    Except String Value :=
  match getField (node t method params) "result" with
  | some v => .ok v
  | none => .error "KeyError"

/-- `Client.block_number`: `int(self.send('blockNumber'), 16)`. -/
def block_number (node : Node) (t : Nat) : Except String Nat :=
  match send node t "blockNumber" [] with
  | .ok (.vStr s) =>
    match intHex? s with
    | some n => .ok n
    | none => .error "ValueError"
  | .ok _ => .error "TypeError"
  | .error e => .error e

/-- `Client.get_transaction_count` as written in the source: the raw
`send` result is returned with no `int(_, 16)` conversion, despite the
annotation `-> int`. -/
def get_transaction_count (node : Node) (t : Nat)
    (addr blockNumber : String) : Except String Value :=
  send node t "getTransactionCount" [.vStr addr, .vStr blockNumber]

/-- The behavior the spec states for `get_transaction_count` (and that
the neighboring `get_balance` / `block_number` implement, and that
`test_get_transaction_count`'s arithmetic `new == pre + 1` requires):
parse the hex string carried in the result into an integer. -/
def get_transaction_count_intended (node : Node) (t : Nat)
    (addr blockNumber : String) : Except String Nat :=
  match send node t "getTransactionCount" [.vStr addr, .vStr blockNumber] with
  | .ok (.vStr s) =>
    match intHex? s with
    | some n => .ok n
    | none => .error "ValueError"
  | .ok _ => .error "TypeError"
  | .error e => .error e

/-- `Client.get_transaction_receipt`. -/
def get_transaction_receipt (node : Node) (t : Nat) (h : Value) :
    Except String Value :=
  send node t "getTransactionReceipt" [h]

/-- `Client.send_raw_transaction`. -/
def send_raw_transaction (node : Node) (t : Nat) (data : String) :
    Except String Value :=
  send node t "sendRawTransaction" [.vStr data]

/-- The receipt-polling loop of `Client.sync_raw_transaction`: at most
`fuel` iterations, each sending `getTransactionReceipt` (the request
counter advances by one per poll, standing in for the one-second
`time.sleep(1)` spacing), returning the first truthy receipt; `none`
when the budget is exhausted. -/
def syncLoop (node : Node) (h : Value) : Nat → Nat → Except String (Option Value)
  | _, 0 => .ok none
  | t, fuel + 1 =>
    match send node t "getTransactionReceipt" [h] with
    | .error e => .error e
    | .ok r => if truthy r then .ok (some r) else syncLoop node h (t + 1) fuel

/-- `Client.sync_raw_transaction`: submit via `send_raw_transaction`,
extract `r['hash']`, then poll `getTransactionReceipt` up to 64 times,
returning the first truthy receipt or `None` when all 64 polls are
falsy. -/
def sync_raw_transaction (node : Node) (t : Nat) (data : String) :
    Except String (Option Value) :=
  match send node t "sendRawTransaction" [.vStr data] with
  | .error e => .error e
  | .ok r =>
    match getField r "hash" with
    | none => .error "KeyError"
    | some h => syncLoop node h (t + 1) 64

/-- Modelled from the spec: `Client.new_block_filter` is absent from
the repository snapshot's `Client` class (only `test_get_filter_block`
calls it); per the spec it is a thin wrapper sending `newBlockFilter`
with no parameters and returning the opaque filter id. -/
def new_block_filter (node : Node) (t : Nat) : Except String Value :=
  send node t "newBlockFilter" []

/-- Modelled from the spec: `Client.new_filter` is absent from the
snapshot's `Client` class (only `test_get_filter` calls it); per the
spec it sends `newFilter` with the filter object and returns the opaque
filter id. -/
def new_filter (node : Node) (t : Nat) (filterObj : Value) :
    Except String Value :=
  send node t "newFilter" [filterObj]

/-- Modelled from the spec: `Client.get_filter_changes` is absent from
the snapshot's `Client` class (only tests call it); per the spec it
sends `getFilterChanges` with the filter id. -/
def get_filter_changes (node : Node) (t : Nat) (filterId : Value) :
    Except String Value :=
  send node t "getFilterChanges" [filterId]

/-- Modelled from the spec: `Client.get_state_proof` is absent from the
snapshot's `Client` class (only `test_get_state_proof` calls it); per
the spec it sends `getStateProof` with address, storage key and block
tag (default `"latest"`), returning whatever the node placed in
`result` — a proof object, or a domain-error object with message
`"StateProofNotFoundError"` when the proof is absent. -/
def get_state_proof (node : Node) (t : Nat)
    (addr key blockNumber : String) : Except String Value :=
  send node t "getStateProof" [.vStr addr, .vStr key, .vStr blockNumber]

/-- Modelled from the spec: `Client.get_transaction_proof` is absent
from the snapshot's `Client` class (only `test_get_transaction_proof`
calls it); per the spec it sends `getTransactionProof` with the
transaction hash. -/
def get_transaction_proof (node : Node) (t : Nat) (h : String) :
    Except String Value :=
  send node t "getTransactionProof" [.vStr h]

end Client

/-- One entry of an ABI member's `inputs`/`outputs` list; only its
`type` field is consulted. -/
structure AbiParam where
  type : String

/-- One member of an interface (ABI) document: a name plus ordered
input and output type entries. -/
structure AbiMember where
  name : String
  inputs : List AbiParam
  outputs : List AbiParam

/-- The member-lookup loop of `abi_encode`: skip members whose name
differs (`continue`), and on the first match collect the `type` field
of each input (then `break`).  When no member matches, the local
`typeis` is never assigned — `none` here — and its later use raises
`UnboundLocalError`. -/
def lookupInputTypes : List AbiMember → String → Option (List String)
  | [], _ => none
  | m :: rest, method =>
    if m.name ≠ method then lookupInputTypes rest method
    else some (m.inputs.map fun i => i.type)

/-- `','.join`. -/
def joinComma : List String → String
  | [] => ""
  | [t] => t
  | t :: rest => t ++ "," ++ joinComma rest

/-- `abi_encode(abi, method, params)`.  `keccak` abstracts
`eth_utils.keccak` (a byte string to its 32-byte digest) and
`encodeAbi` abstracts `eth_abi.encode_abi` (a type list and the
positional arguments to the payload bytes); both are external
libraries.  The selector is the first 4 bytes of the Keccak-256 digest
of `method ++ "(" ++ types joined by commas ++ ")"`, and the result is
`0x` ++ selector hex ++ payload hex. -/
def abi_encode {α : Type} (keccak : String → List Nat)
    (encodeAbi : List String → α → List Nat)
    (abi : List AbiMember) (method : String) (params : α) :
    Except String String :=
  match lookupInputTypes abi method with
  | none => .error "UnboundLocalError"
  | some typeis =>
    let r := keccak (method ++ "(" ++ joinComma typeis ++ ")")
    let part1 := bytesToHex (r.take 4)
    let part2 := bytesToHex (encodeAbi typeis params)
    .ok ("0x" ++ part1 ++ part2)

/-- The `blockchain_pb2.Transaction` record.  Optional protobuf fields
that the builder may leave unset are `Option`; the rest carry protobuf
defaults. -/
structure Transaction where
  «to» : Option String := none
  nonce : String := ""
  quota : Nat := 0
  valid_until_block : Nat := 0
  data : List Nat := []
  value : List Nat := []
  chain_id : Option Nat := none
  version : Nat := 0
  to_v1 : Option (List Nat) := none
  chain_id_v1 : Option (List Nat) := none

/-- The `blockchain_pb2.UnverifiedTransaction` envelope. -/
structure UnverifiedTransaction where
  transaction : Transaction
  signature : List Nat
  crypto : Nat

/-- Module constant `c_tx_version = 0`. -/
def c_tx_version : Nat := 0

/-- `string.ascii_letters + string.digits`: the 62-character
alphanumeric alphabet the nonce is drawn from. -/
def nonceAlphabet : List Char :=
  "abcdefghijklmnopqrstuvwxyzABCDEFGHIJKLMNOPQRSTUVWXYZ0123456789".toList

/-- `''.join([random.choice(string.ascii_letters + string.digits) for n
in range(32)])`; the random source is abstracted as a stream of indices
reduced mod 62. -/
def mkNonce (rnd : Nat → Nat) : String :=
  String.mk ((List.range 32).map fun i => nonceAlphabet.getD (rnd i % 62) 'a')

/-- Python truthiness of the `to` argument (`if to:`): `None` and the
empty string are falsy. -/
def pyTruthyStr : Option String → Bool
  | none => false
  | some s => !s.isEmpty

namespace Client

/-- `Client.sign_tx(pk, to, data, value, quota)`.  `keccak` abstracts
`eth_utils.keccak` on bytes, `signMsgHash` abstracts
`pk.sign_msg_hash(...).to_bytes()`, and `serTx` / `serEnv` abstract the
protobuf `SerializeToString` of the two messages; all are external
libraries.  Mirrors the source's assignment order: query
`block_number() + 16`, draw the nonce, set `version = c_tx_version`,
populate the version-dependent chain-id/destination fields, decode
`data`, encode `value` as 32 big-endian bytes (`OverflowError` when it
does not fit), set `quota`, then hash, sign and wrap in an envelope
with `crypto = 0`.  Returns the envelope together with the
`0x`-prefixed hex of its serialization. -/
def sign_tx (node : Node) (t : Nat) (rnd : Nat → Nat)
    (keccak : List Nat → List Nat) (signMsgHash : List Nat → List Nat)
    (serTx : Transaction → List Nat)
    (serEnv : UnverifiedTransaction → List Nat)
    («to» : Option String) (data : String) (value : Nat) (quota : Nat) :
    Except String (UnverifiedTransaction × String) :=
  match block_number node t with
  | .error e => .error e
  | .ok bn =>
    let tx0 : Transaction :=
      { valid_until_block := bn + 16
        nonce := mkNonce rnd
        version := c_tx_version }
    let txBranch : Except String Transaction :=
      if tx0.version = 1 then
        let tx1 := { tx0 with chain_id_v1 := some (toBytesBE 32 1) }
        if pyTruthyStr «to» then
          match bytesFromHex? (strip0x («to».getD "")).toList with
          | some tb => .ok { tx1 with to_v1 := some tb }
          | none => .error "ValueError"
        else .ok tx1
      else
        let tx1 := { tx0 with chain_id := some 1 }
        if pyTruthyStr «to» then .ok { tx1 with «to» := some (strip0x («to».getD "")) }
        else .ok tx1
    match txBranch with
    | .error e => .error e
    | .ok tx1 =>
      match bytesFromHex? (strip0x data).toList with
      | none => .error "ValueError"
      | some dataBytes =>
        if value < 2 ^ 256 then
          let tx : Transaction :=
            { tx1 with data := dataBytes, value := toBytesBE 32 value, quota := quota }
          let message := keccak (serTx tx)
          let signature := signMsgHash message
          let env : UnverifiedTransaction :=
            { transaction := tx, signature := signature, crypto := 0 }
          .ok (env, "0x" ++ bytesToHex (serEnv env))
        else .error "OverflowError"

end Client

namespace CheckDupDep

/-- The value a manifest pins a dependency name to: either a plain
version string, or a nested table (`isinstance(v, dict)` — a path/git
dependency), which the checker skips. -/
inductive DepVal where
  | str : String → DepVal
  | table : DepVal
deriving DecidableEq

/-- One parsed `Cargo.toml`: its path, its `dependencies` table (absent
when the document lacks that key) and its `dev-dependencies` table. -/
structure Manifest where
  path : String
  dependencies : Option (List (String × DepVal))
  devDependencies : Option (List (String × DepVal))
deriving DecidableEq

/-- The scan state: the version map `m` (an insertion-ordered dict sending
a dependency name to the pair of a manifest path and a version string)
and the `dup!` lines printed so far. -/
structure ScanState where
  m : List (String × String × String)
  out : List String
deriving DecidableEq

/-- Dict lookup `m[e]` / `e in m`. -/
def mlookup : List (String × String × String) → String → Option (String × String)
  | [], _ => none
  | (e, p, v) :: rest, e' => if e = e' then some (p, v) else mlookup rest e'

/-- Dict assignment `m[e] = [p, v]` (overwrite in place, insert at the
end otherwise). -/
def mupdate : List (String × String × String) → String → String → String →
    List (String × String × String)
  | [], e, p, v => [(e, p, v)]
  | (e', p', v') :: rest, e, p, v =>
    if e' = e then (e, p, v) :: rest else (e', p', v') :: mupdate rest e p v

/-- The printed conflict line
`f'dup! {m[e][0]} {e}={m[e][1]} | {p} {e}={v}'`. -/
def dupLine (p0 e v0 p v : String) : String :=
  "dup! " ++ p0 ++ " " ++ e ++ "=" ++ v0 ++ " | " ++ p ++ " " ++ e ++ "=" ++ v

/-- The per-entry body of both table loops: skip nested tables; print a
`dup!` line when the name is known with a different version; otherwise
(re)assign `m[e] = [p, v]`. -/
def procEntry (p : String) (st : ScanState) (ev : String × DepVal) : ScanState :=
  match ev.2 with
  | .table => st
  | .str v =>
    match mlookup st.m ev.1 with
    | some (p0, v0) =>
      if v0 ≠ v then { st with out := st.out ++ [dupLine p0 ev.1 v0 p v] }
      else { m := mupdate st.m ev.1 p v, out := st.out }
    | none => { m := mupdate st.m ev.1 p v, out := st.out }

/-- One table's `for e, v in ...items():` loop. -/
def procTable (p : String) (st : ScanState)
    (entries : List (String × DepVal)) : ScanState :=
  entries.foldl (procEntry p) st

/-- One manifest: `c['dependencies']` is read unconditionally
(`KeyError` when the table is absent), `c['dev-dependencies']` only
after the `'dev-dependencies' in c` check. -/
def procFile (st : ScanState) (f : Manifest) : Except String ScanState :=
  match f.dependencies with
  | none => .error "KeyError"
  | some ds =>
    let st1 := procTable f.path st ds
    match f.devDependencies with
    | none => .ok st1
    | some dds => .ok (procTable f.path st1 dds)

/-- The scan over the globbed manifest list from a given state. -/
def runFiles (st : ScanState) : List Manifest → Except String ScanState
  | [] => .ok st
  | f :: fs =>
    match procFile st f with
    | .error e => .error e
    | .ok st' => runFiles st' fs

/-- The whole script: scan every manifest starting from `m = {}` and no
output. -/
def checkDupDep (files : List Manifest) : Except String ScanState :=
  runFiles ⟨[], []⟩ files

/-- The stream of (path, name, version) pins one table contributes to
the scan, nested-table entries skipped. -/
def flatEntries (p : String) : List (String × DepVal) →
    List (String × String × String)
  | [] => []
  | (e, .str v) :: rest => (p, e, v) :: flatEntries p rest
  | (_, .table) :: rest => flatEntries p rest

/-- The pin stream of one manifest (its two tables in scan order). -/
def flatFile (f : Manifest) : List (String × String × String) :=
  flatEntries f.path (f.dependencies.getD []) ++
    flatEntries f.path (f.devDependencies.getD [])

/-- The pin stream of the whole scan. -/
def flatFiles : List Manifest → List (String × String × String)
  | [] => []
  | f :: fs => flatFile f ++ flatFiles fs

/-- The scan replayed over a flat pin stream. -/
def runFlat (st : ScanState) : List (String × String × String) → ScanState
  | [] => st
  | (p, e, v) :: rest => runFlat (procEntry p st (e, .str v)) rest

/-- The first version a pin stream gives to name `e`. -/
def firstVer (e : String) : List (String × String × String) → Option String
  | [] => none
  | (_, n, v) :: rest => if n = e then some v else firstVer e rest

/-- The path of the last pin of name `e` at exactly version `v` in a
stream. -/
def lastAgree (e v : String) : List (String × String × String) → Option String
  | [] => none
  | (p, n, w) :: rest =>
    match lastAgree e v rest with
    | some q => some q
    | none => if n = e ∧ w = v then some p else none

end CheckDupDep

/-! Concrete fixtures used by witnesses and counterexamples. -/

/-- A node whose `getTransactionCount` response carries the hex string
`"0x5"` in `result` (the shape `get_balance` and `block_number` receive
as well). -/
def nodeTc : Node := fun _ method _ =>
  if method = "getTransactionCount" then .vObj [("result", .vStr "0x5")]
  else .vNull

/-- A node whose responses carry both a `result` (itself a domain-error
object with a `message` field) and a JSON-RPC-level `error` field. -/
def nodeErr : Node := fun _ _ _ =>
  .vObj [("result", .vObj [("message", .vStr "StateProofNotFoundError")]),
         ("error", .vStr "boom")]

/-- A node that acknowledges `sendRawTransaction` with a `hash` but
answers every `getTransactionReceipt` with a null result (a transaction
that is never mined). -/
def nodeNoReceipt : Node := fun _ method _ =>
  if method = "sendRawTransaction" then
    .vObj [("result", .vObj [("hash", .vStr "0xabc")])]
  else .vObj [("result", .vNull)]

/-- A node whose `blockNumber` result is the hex string `"0x10"`. -/
def nodeBn : Node := fun _ method _ =>
  if method = "blockNumber" then .vObj [("result", .vStr "0x10")]
  else .vObj [("result", .vNull)]

/-- A stand-in for `eth_utils.keccak` on strings: an all-zero digest. -/
def keccakStrZero : String → List Nat := fun _ => List.replicate 32 0

/-- A stand-in for `eth_utils.keccak` on bytes. -/
def keccakBytesZero : List Nat → List Nat := fun _ => List.replicate 32 0

/-- A stand-in for `eth_abi.encode_abi`: an empty payload. -/
def encodeAbiNil : List String → Unit → List Nat := fun _ _ => []

/-- The ABI member `set(uint256)` of the SimpleStorage interface
document. -/
def setMember : AbiMember :=
  { name := "set", inputs := [{ type := "uint256" }], outputs := [] }

/-- A one-member interface document: `set(uint256)`. -/
def abiSet : List AbiMember := [setMember]

/-- A stand-in for protobuf `Transaction.SerializeToString`. -/
def serTxNil : Transaction → List Nat := fun _ => []

/-- A stand-in for protobuf
`UnverifiedTransaction.SerializeToString`. -/
def serEnvNil : UnverifiedTransaction → List Nat := fun _ => []

/-- A stand-in for `pk.sign_msg_hash(...).to_bytes()`. -/
def signNil : List Nat → List Nat := fun _ => []

namespace CheckDupDep

/-- Manifest `a/Cargo.toml` pinning `x = "1"`. -/
def manifestA : Manifest :=
  { path := "a/Cargo.toml", dependencies := some [("x", .str "1")],
    devDependencies := none }

/-- Manifest `b/Cargo.toml` pinning `x = "1"` (same version as
`manifestA`). -/
def manifestB : Manifest :=
  { path := "b/Cargo.toml", dependencies := some [("x", .str "1")],
    devDependencies := none }

/-- Manifest `c/Cargo.toml` pinning `x = "2"` (conflicting version). -/
def manifestC : Manifest :=
  { path := "c/Cargo.toml", dependencies := some [("x", .str "2")],
    devDependencies := none }

/-- A manifest that parses but has no `dependencies` table. -/
def manifestNoDeps : Manifest :=
  { path := "d/Cargo.toml", dependencies := none,
    devDependencies := some [("x", .str "1")] }

end CheckDupDep

/-! Claims. -/

/-- C4: for every method name and parameter list, `Client.send` returns
exactly the value of the `result` key of the JSON-parsed response body,
unconditionally: the statement quantifies over every node response
body, so in particular a body also carrying a JSON-RPC-level `error`
field (second conjunct) or a domain-error object inside `result` is
passed through unchanged rather than raised or translated. -/
theorem c4_send_result_unconditional :
    (∀ (node : Node) (t : Nat) (method : String) (params : List Value)
        (v : Value),
      getField (node t method params) "result" = some v →
      Client.send node t method params = Except.ok v) ∧
    (∀ (node : Node) (t : Nat) (method : String) (params : List Value)
        (v err : Value),
      getField (node t method params) "result" = some v →
      getField (node t method params) "error" = some err →
      Client.send node t method params = Except.ok v) := by
  constructor
  · intro node t method params v h
    simp [Client.send, h]
  · intro node t method params v err h _
    simp [Client.send, h]

/-- Witness for C4: a node whose response body carries both an `error`
field and, inside `result`, a domain-error object; `send` returns the
`result` value as ordinary data. -/
theorem c4_witness :
    Client.send nodeErr 0 "getStateProof" [] =
      Except.ok (Value.vObj [("message", Value.vStr "StateProofNotFoundError")]) :=
  c4_send_result_unconditional.2 nodeErr 0 "getStateProof" []
    (Value.vObj [("message", Value.vStr "StateProofNotFoundError")])
    (Value.vStr "boom") rfl rfl

/-- C2 (failing input): the source's `get_transaction_count` performs
no `int(_, 16)` conversion: on a node answering `getTransactionCount`
with the hex string `"0x5"` it returns the raw string, while the
behavior the spec states (and the `-> int` annotation and
`test_get_transaction_count`'s `new == pre + 1` arithmetic require)
yields the integer `5`. -/
theorem c2_get_transaction_count_unparsed :
    Client.get_transaction_count nodeTc 0 "0xaddr" "latest" =
        Except.ok (Value.vStr "0x5") ∧
    Client.get_transaction_count_intended nodeTc 0 "0xaddr" "latest" =
        Except.ok 5 := by
  constructor <;> rfl

/-- C1: the filter and proof convenience methods (modelled from the
spec; they are absent from the repository snapshot's `Client` class)
are each a thin mapping from typed parameters to a `send` call, and
`get_state_proof` passes through whatever the node placed in `result`:
whenever that is a proof object (any predicate `P`) or a domain-error
object whose `message` field is `"StateProofNotFoundError"`, the method
returns exactly that value, still satisfying the same disjunction. -/
theorem c1_filter_proof_methods :
    (∀ (node : Node) (t : Nat),
      Client.new_block_filter node t = Client.send node t "newBlockFilter" []) ∧
    (∀ (node : Node) (t : Nat) (fobj : Value),
      Client.new_filter node t fobj = Client.send node t "newFilter" [fobj]) ∧
    (∀ (node : Node) (t : Nat) (fid : Value),
      Client.get_filter_changes node t fid =
        Client.send node t "getFilterChanges" [fid]) ∧
    (∀ (node : Node) (t : Nat) (h : String),
      Client.get_transaction_proof node t h =
        Client.send node t "getTransactionProof" [Value.vStr h]) ∧
    (∀ (node : Node) (t : Nat) (a k b : String),
      Client.get_state_proof node t a k b =
        Client.send node t "getStateProof"
          [Value.vStr a, Value.vStr k, Value.vStr b]) ∧
    (∀ (node : Node) (t : Nat) (a k b : String) (P : Value → Prop) (r : Value),
      getField (node t "getStateProof"
          [Value.vStr a, Value.vStr k, Value.vStr b]) "result" = some r →
      (P r ∨ getField r "message" = some (Value.vStr "StateProofNotFoundError")) →
      Client.get_state_proof node t a k b = Except.ok r ∧
        (P r ∨ getField r "message" = some (Value.vStr "StateProofNotFoundError"))) := by
  refine ⟨fun _ _ => rfl, fun _ _ _ => rfl, fun _ _ _ => rfl, fun _ _ _ => rfl,
    fun _ _ _ _ _ => rfl, ?_⟩
  intro node t a k b P r h hp
  exact ⟨by simp [Client.get_state_proof, Client.send, h], hp⟩

/-- Witness for C1: on a node answering `getStateProof` with a
domain-error object, `get_state_proof` returns that object, and the
disjunction holds through its error side. -/
theorem c1_witness :
    Client.get_state_proof nodeErr 0 "0xaddr" "0x00" "latest" =
        Except.ok (Value.vObj [("message", Value.vStr "StateProofNotFoundError")]) ∧
      ((Value.vObj [("message", Value.vStr "StateProofNotFoundError")]) =
          Value.vNull ∨
        getField (Value.vObj [("message", Value.vStr "StateProofNotFoundError")])
            "message" = some (Value.vStr "StateProofNotFoundError")) :=
  c1_filter_proof_methods.2.2.2.2.2 nodeErr 0 "0xaddr" "0x00" "latest"
    (fun v => v = Value.vNull)
    (Value.vObj [("message", Value.vStr "StateProofNotFoundError")])
    rfl (Or.inr rfl)

/-- Member lookup in `abi_encode` stops at the first member whose name
matches: members before it (none of which match) are skipped by the
loop's `continue`. -/
theorem lookupInputTypes_first (pre : List AbiMember) (m : AbiMember)
    (post : List AbiMember) (method : String)
    (hpre : ∀ x ∈ pre, x.name ≠ method) (hm : m.name = method) :
    lookupInputTypes (pre ++ m :: post) method =
      some (m.inputs.map fun i => i.type) := by
  induction pre with
  | nil => simp [lookupInputTypes, hm]
  | cons x rest ih =>
    have hx : x.name ≠ method := hpre x (List.mem_cons_self _ _)
    simp only [List.cons_append, lookupInputTypes, if_pos hx]
    exact ih fun y hy => hpre y (List.mem_cons_of_mem _ hy)

/-- When no member matches, the lookup loop never assigns the type
list. -/
theorem lookupInputTypes_none (abi : List AbiMember) (method : String)
    (h : ∀ m ∈ abi, m.name ≠ method) :
    lookupInputTypes abi method = none := by
  induction abi with
  | nil => rfl
  | cons m rest ih =>
    have hm : m.name ≠ method := h m (List.mem_cons_self _ _)
    simp only [lookupInputTypes, if_pos hm]
    exact ih fun y hy => h y (List.mem_cons_of_mem _ hy)

/-- C5: when the interface document contains a member named
`method` (here the first such member `m`, every member before it having
a different name), `abi_encode` uses that member's input type list, the
4-byte selector is the first 4 bytes of the Keccak-256 hash of the
signature string `method ++ "(" ++ types comma-joined, no spaces ++
")"`, the payload is the ABI encoding of the positional arguments
against that type list, and the result is `0x` ++ selector hex ++
payload hex. -/
theorem c5_abi_encode_first_match {α : Type} (keccak : String → List Nat)
    (encodeAbi : List String → α → List Nat)
    (pre : List AbiMember) (m : AbiMember) (post : List AbiMember)
    (method : String) (params : α)
    (hpre : ∀ x ∈ pre, x.name ≠ method) (hm : m.name = method) :
    abi_encode keccak encodeAbi (pre ++ m :: post) method params =
      Except.ok ("0x" ++
        bytesToHex ((keccak (method ++ "(" ++
          joinComma (m.inputs.map fun i => i.type) ++ ")")).take 4) ++
        bytesToHex (encodeAbi (m.inputs.map fun i => i.type) params)) := by
  simp [abi_encode, lookupInputTypes_first pre m post method hpre hm]

/-- Witness for C5: encoding `set` against the SimpleStorage interface
with the stand-in hash and encoder yields `0x` ++ 4 zero selector bytes
++ an empty payload. -/
theorem c5_witness :
    abi_encode keccakStrZero encodeAbiNil abiSet "set" () =
      Except.ok "0x00000000" := by
  have h := c5_abi_encode_first_match keccakStrZero encodeAbiNil
    [] setMember [] "set" () (by intro x hx; cases hx) rfl
  simpa [abiSet, keccakStrZero, encodeAbiNil, setMember, joinComma,
    bytesToHex, byteToHex, hexChar] using h

/-- C6 (counterexample): on an interface document whose only member is
`set`, a call with the unmatched name `nosuch` does not silently reuse
the previously inspected member's type list — it produces no value at
all (`isOk = false`): the loop's `continue` skips non-matching members
before the type list is ever assigned, so its later use raises
`UnboundLocalError`. -/
theorem c6_counterexample :
    abi_encode keccakStrZero encodeAbiNil abiSet "nosuch" () =
        Except.error "UnboundLocalError" ∧
      (abi_encode keccakStrZero encodeAbiNil abiSet "nosuch" ()).isOk = false := by
  constructor <;> rfl

/-- C6 (amended): when no member of the interface document matches
`method_name`, `abi_encode` raises `UnboundLocalError` (the local
`typeis` is referenced without ever being assigned) — an exception,
though not a NotFound-class error, rather than a silent reuse of the
last-examined member's types. -/
theorem c6_amended_unbound_local {α : Type} (keccak : String → List Nat)
    (encodeAbi : List String → α → List Nat)
    (abi : List AbiMember) (method : String) (params : α)
    (h : ∀ m ∈ abi, m.name ≠ method) :
    abi_encode keccak encodeAbi abi method params =
      Except.error "UnboundLocalError" := by
  simp [abi_encode, lookupInputTypes_none abi method h]

/-- Witness for C6's amended statement at the concrete unmatched
input. -/
theorem c6_witness :
    abi_encode keccakStrZero encodeAbiNil abiSet "nosuch" () =
      Except.error "UnboundLocalError" :=
  c6_amended_unbound_local keccakStrZero encodeAbiNil abiSet "nosuch" ()
    (by intro m hm; rw [abiSet, List.mem_singleton] at hm; subst hm; decide)

namespace CheckDupDep

/-- C9: over exactly two manifests pinning the same name as plain
strings, a version conflict prints exactly the one line
`dup! <first-file> <name>=<first-version> | <second-file>
<name>=<second-version>` (first-seen left of the `|`, second-seen
right); identical versions print nothing; and nested-table pins are
skipped from comparison entirely (they leave the scan state
untouched). -/
theorem c9_two_manifest_detection :
    (∀ pa pb n v1 v2 : String, v1 ≠ v2 →
      checkDupDep
          [{ path := pa, dependencies := some [(n, .str v1)],
             devDependencies := none },
           { path := pb, dependencies := some [(n, .str v2)],
             devDependencies := none }] =
        Except.ok { m := [(n, pa, v1)],
                    out := [dupLine pa n v1 pb v2] }) ∧
    (∀ pa pb n v : String,
      checkDupDep
          [{ path := pa, dependencies := some [(n, .str v)],
             devDependencies := none },
           { path := pb, dependencies := some [(n, .str v)],
             devDependencies := none }] =
        Except.ok { m := [(n, pb, v)], out := [] }) ∧
    (∀ (p : String) (st : ScanState) (e : String),
      procEntry p st (e, DepVal.table) = st) := by
  refine ⟨?_, ?_, ?_⟩
  · intro pa pb n v1 v2 h
    simp [checkDupDep, runFiles, procFile, procTable, procEntry,
      mlookup, mupdate, h]
  · intro pa pb n v
    simp [checkDupDep, runFiles, procFile, procTable, procEntry,
      mlookup, mupdate]
  · intro p st e
    rfl

/-- Witness for C9 at concrete manifests: `a/Cargo.toml` and
`c/Cargo.toml` pin `x` to `"1"` and `"2"` respectively, and the one
printed line names both. -/
theorem c9_witness :
    checkDupDep
        [{ path := "a/Cargo.toml", dependencies := some [("x", .str "1")],
           devDependencies := none },
         { path := "c/Cargo.toml", dependencies := some [("x", .str "2")],
           devDependencies := none }] =
      Except.ok { m := [("x", "a/Cargo.toml", "1")],
                  out := ["dup! a/Cargo.toml x=1 | c/Cargo.toml x=2"] } := by
  have h := c9_two_manifest_detection.1 "a/Cargo.toml" "c/Cargo.toml" "x" "1" "2"
    (by decide)
  simpa [dupLine] using h

/-- The scan from any state fails with `KeyError` as soon as it reaches
a manifest with no `dependencies` table, provided the manifests before
it have one. -/
theorem runFiles_error_of_missing (pre : List Manifest) :
    ∀ (st : ScanState) (f : Manifest) (post : List Manifest),
      (∀ g ∈ pre, (g.dependencies).isSome = true) → f.dependencies = none →
      runFiles st (pre ++ f :: post) = Except.error "KeyError" := by
  induction pre with
  | nil =>
    intro st f post _ hf
    simp [runFiles, procFile, hf]
  | cons g gs ih =>
    intro st f post hp hf
    have hg : (g.dependencies).isSome = true := hp g (List.mem_cons_self _ _)
    obtain ⟨ds, hds⟩ := Option.isSome_iff_exists.mp hg
    cases hdev : g.devDependencies <;>
      simp only [List.cons_append, runFiles, procFile, hds, hdev] <;>
      exact ih _ f post (fun x hx => hp x (List.mem_cons_of_mem _ hx)) hf

/-- C10: `c['dependencies']` is read unconditionally, so a manifest
without a `dependencies` table makes `procFile` — and therefore the
whole run, once the scan reaches that manifest — fail with `KeyError`;
a manifest with a `dependencies` table always succeeds, whether or not
it has a `dev-dependencies` table (that one is read only behind a
presence check). -/
theorem c10_missing_dependencies_table :
    (∀ (st : ScanState) (f : Manifest), f.dependencies = none →
      procFile st f = Except.error "KeyError") ∧
    (∀ (st : ScanState) (f : Manifest) (ds : List (String × DepVal)),
      f.dependencies = some ds → ∃ st', procFile st f = Except.ok st') ∧
    (∀ (pre : List Manifest) (f : Manifest) (post : List Manifest),
      (∀ g ∈ pre, (g.dependencies).isSome = true) → f.dependencies = none →
      checkDupDep (pre ++ f :: post) = Except.error "KeyError") := by
  refine ⟨?_, ?_, ?_⟩
  · intro st f hf
    simp [procFile, hf]
  · intro st f ds hds
    cases hdev : f.devDependencies with
    | none =>
      exact ⟨procTable f.path st ds, by simp [procFile, hds, hdev]⟩
    | some dds =>
      exact ⟨procTable f.path (procTable f.path st ds) dds,
        by simp [procFile, hds, hdev]⟩
  · intro pre f post hp hf
    exact runFiles_error_of_missing pre ⟨[], []⟩ f post hp hf

/-- Witness for C10: a well-formed manifest followed by one lacking a
`dependencies` table (but carrying `dev-dependencies`) aborts the whole
run with `KeyError`. -/
theorem c10_witness :
    checkDupDep [manifestA, manifestNoDeps] = Except.error "KeyError" :=
  c10_missing_dependencies_table.2.2 [manifestA] manifestNoDeps []
    (by intro g hg; rw [List.mem_singleton] at hg; subst hg; rfl) rfl

end CheckDupDep

namespace Client

/-- When every receipt poll in the budget window answers with a falsy
result, the polling loop exhausts its budget and yields `None`. -/
theorem syncLoop_all_falsy (node : Node) (h : Value) :
    ∀ (fuel t : Nat),
      (∀ s, t ≤ s → s < t + fuel →
        ∃ r, send node s "getTransactionReceipt" [h] = Except.ok r ∧
          truthy r = false) →
      syncLoop node h t fuel = Except.ok none := by
  intro fuel
  induction fuel with
  | zero => intro t _; rfl
  | succ n ih =>
    intro t hall
    obtain ⟨r, hr, hf⟩ := hall t (le_refl t) (by omega)
    simp only [syncLoop, hr, hf, Bool.false_eq_true, if_false]
    exact ih (t + 1) fun s hs1 hs2 => hall s (by omega) (by omega)

/-- The polling loop returns the first truthy receipt in its budget
window. -/
theorem syncLoop_first_truthy (node : Node) (h : Value) :
    ∀ (fuel t s0 : Nat) (r : Value),
      t ≤ s0 → s0 < t + fuel →
      send node s0 "getTransactionReceipt" [h] = Except.ok r →
      truthy r = true →
      (∀ s, t ≤ s → s < s0 →
        ∃ r', send node s "getTransactionReceipt" [h] = Except.ok r' ∧
          truthy r' = false) →
      syncLoop node h t fuel = Except.ok (some r) := by
  intro fuel
  induction fuel with
  | zero =>
    intro t s0 r h1 h2 _ _ _
    exact absurd h2 (by omega)
  | succ n ih =>
    intro t s0 r h1 h2 hr htr hprev
    by_cases hts : t = s0
    · subst hts
      simp only [syncLoop, hr, htr, if_true]
    · have ht : t < s0 := lt_of_le_of_ne h1 hts
      obtain ⟨r', hr', hf'⟩ := hprev t (le_refl t) ht
      simp only [syncLoop, hr', hf', Bool.false_eq_true, if_false]
      exact ih (t + 1) s0 r (by omega) (by omega) hr htr
        fun s hs1 hs2 => hprev s (by omega) hs2

/-- C3: `sync_raw_transaction` submits the envelope via
`sendRawTransaction`, extracts the acknowledgment's `hash`, and polls
`getTransactionReceipt` with that hash for at most 64 attempts (one per
request-counter tick, standing in for the one-second spacing): if every
poll in the budget yields a falsy (empty) result it returns `None`
without raising an error of its own, and otherwise it returns the first
truthy receipt. -/
theorem c3_sync_raw_transaction (node : Node) (t : Nat) (data : String)
    (ack : Value) (h : Value)
    (hack : send node t "sendRawTransaction" [Value.vStr data] = Except.ok ack)
    (hh : getField ack "hash" = some h) :
    ((∀ s, t + 1 ≤ s → s < t + 65 →
        ∃ r, send node s "getTransactionReceipt" [h] = Except.ok r ∧
          truthy r = false) →
      sync_raw_transaction node t data = Except.ok none) ∧
    (∀ (s0 : Nat) (r : Value), t + 1 ≤ s0 → s0 < t + 65 →
      send node s0 "getTransactionReceipt" [h] = Except.ok r →
      truthy r = true →
      (∀ s, t + 1 ≤ s → s < s0 →
        ∃ r', send node s "getTransactionReceipt" [h] = Except.ok r' ∧
          truthy r' = false) →
      sync_raw_transaction node t data = Except.ok (some r)) := by
  constructor
  · intro hall
    simp only [sync_raw_transaction, hack, hh]
    exact syncLoop_all_falsy node h 64 (t + 1) fun s a b => hall s a (by omega)
  · intro s0 r h1 h2 hr htr hprev
    simp only [sync_raw_transaction, hack, hh]
    exact syncLoop_first_truthy node h 64 (t + 1) s0 r h1 (by omega) hr htr hprev

end Client

/-- Witness for C3: a node that acknowledges the submission but never
produces a receipt; after the 64-attempt budget the composite returns
`None` rather than an error. -/
theorem c3_witness :
    Client.sync_raw_transaction nodeNoReceipt 0 "0xdead" = Except.ok none :=
  (Client.c3_sync_raw_transaction nodeNoReceipt 0 "0xdead"
      (Value.vObj [("hash", Value.vStr "0xabc")]) (Value.vStr "0xabc") rfl rfl).1
    fun _ _ _ => ⟨Value.vNull, rfl, rfl⟩

/-- `to_bytes(n, 'big')` produces exactly `n` bytes. -/
theorem toBytesBE_length (n : Nat) : ∀ v : Nat, (toBytesBE n v).length = n := by
  induction n with
  | zero => intro v; rfl
  | succ k ih => intro v; simp [toBytesBE, ih]

/-- The generated nonce has exactly 32 characters. -/
theorem mkNonce_length (rnd : Nat → Nat) : (mkNonce rnd).length = 32 := by
  simp [mkNonce, String.length]

/-- Every character of the generated nonce is drawn from the
62-character alphanumeric alphabet. -/
theorem mkNonce_mem_alphabet (rnd : Nat → Nat) :
    ∀ c ∈ (mkNonce rnd).toList, c ∈ nonceAlphabet := by
  intro c hc
  simp only [mkNonce, String.toList, List.mem_map, List.mem_range] at hc
  obtain ⟨i, _, hi⟩ := hc
  have hlen : nonceAlphabet.length = 62 := by decide
  have hlt : rnd i % 62 < nonceAlphabet.length := by
    rw [hlen]; exact Nat.mod_lt _ (by norm_num)
  rw [List.getD_eq_getElem _ _ hlt] at hi
  rw [← hi]
  exact List.getElem_mem hlt

/-- C7: every successful `sign_tx` call (current height queried
successfully, well-formed calldata hex, value below `2 ^ 256`) produces
a transaction record with `valid_until_block` = queried height + 16, a
32-character nonce drawn from the 62-character alphanumeric alphabet,
`version = 0`, version-0 fields `chain_id = 0x01` and a string
destination (the input address, `0x` prefix stripped) exactly when `to`
is truthy and no destination field at all when `to` is empty or absent,
`value` as its 32-byte big-endian encoding, an envelope `crypto` tag of
`0`, and the version-1 fields (`to_v1`, `chain_id_v1`) never
populated. -/
theorem c7_sign_tx_fields (node : Node) (t : Nat) (rnd : Nat → Nat)
    (keccak signMsgHash : List Nat → List Nat)
    (serTx : Transaction → List Nat)
    (serEnv : UnverifiedTransaction → List Nat)
    («to» : Option String) (data : String) (value quota : Nat)
    (bn : Nat) (hbn : Client.block_number node t = Except.ok bn)
    (dataBytes : List Nat)
    (hdata : bytesFromHex? (strip0x data).toList = some dataBytes)
    (hval : value < 2 ^ 256) :
    ∃ env hex,
      Client.sign_tx node t rnd keccak signMsgHash serTx serEnv
          «to» data value quota = Except.ok (env, hex) ∧
      env.transaction.valid_until_block = bn + 16 ∧
      env.transaction.nonce.length = 32 ∧
      (∀ c ∈ env.transaction.nonce.toList, c ∈ nonceAlphabet) ∧
      env.transaction.version = 0 ∧
      env.transaction.chain_id = some 1 ∧
      (pyTruthyStr «to» = true →
        env.transaction.«to» = some (strip0x («to».getD ""))) ∧
      (pyTruthyStr «to» = false → env.transaction.«to» = none) ∧
      env.transaction.value = toBytesBE 32 value ∧
      env.transaction.value.length = 32 ∧
      env.transaction.quota = quota ∧
      env.transaction.data = dataBytes ∧
      env.crypto = 0 ∧
      env.transaction.to_v1 = none ∧
      env.transaction.chain_id_v1 = none := by
  cases hto : pyTruthyStr «to» <;>
    · simp only [Client.sign_tx, hbn, c_tx_version, hdata, hval, hto,
        if_true, if_false, Bool.false_eq_true, one_ne_zero, if_neg,
        reduceIte]
      refine ⟨_, _, rfl, rfl, mkNonce_length rnd, mkNonce_mem_alphabet rnd,
        rfl, rfl, ?_, ?_, rfl, toBytesBE_length 32 value, rfl, rfl, rfl,
        rfl, rfl⟩ <;> simp [hto]

/-- Witness for C7: a concrete signing call against a node at height
`0x10` with destination `0xabcd`, calldata `0x1234` and value 5. -/
theorem c7_witness :
    ∃ env hex,
      Client.sign_tx nodeBn 0 (fun _ => 0) keccakBytesZero signNil
          serTxNil serEnvNil (some "0xabcd") "0x1234" 5 1000000 =
        Except.ok (env, hex) ∧
      env.transaction.valid_until_block = 16 + 16 ∧
      env.transaction.nonce.length = 32 ∧
      (∀ c ∈ env.transaction.nonce.toList, c ∈ nonceAlphabet) ∧
      env.transaction.version = 0 ∧
      env.transaction.chain_id = some 1 ∧
      (pyTruthyStr (some "0xabcd") = true →
        env.transaction.«to» = some (strip0x ((some "0xabcd").getD ""))) ∧
      (pyTruthyStr (some "0xabcd") = false → env.transaction.«to» = none) ∧
      env.transaction.value = toBytesBE 32 5 ∧
      env.transaction.value.length = 32 ∧
      env.transaction.quota = 1000000 ∧
      env.transaction.data = [18, 52] ∧
      env.crypto = 0 ∧
      env.transaction.to_v1 = none ∧
      env.transaction.chain_id_v1 = none :=
  c7_sign_tx_fields nodeBn 0 (fun _ => 0) keccakBytesZero signNil
    serTxNil serEnvNil (some "0xabcd") "0x1234" 5 1000000 16 rfl
    [18, 52] rfl (by norm_num)

namespace CheckDupDep

/-- `m[e] = [p, v]` followed by `m[e]` yields `[p, v]`. -/
theorem mlookup_mupdate_self (m : List (String × String × String))
    (e p v : String) : mlookup (mupdate m e p v) e = some (p, v) := by
  induction m with
  | nil => simp [mupdate, mlookup]
  | cons x rest ih =>
    obtain ⟨a, b, c⟩ := x
    by_cases h : a = e
    · subst h; simp [mupdate, mlookup]
    · simp [mupdate, mlookup, h, ih]

/-- Assigning key `e` leaves lookups of other keys unchanged. -/
theorem mlookup_mupdate_ne (m : List (String × String × String))
    (e p v e' : String) (h : e ≠ e') :
    mlookup (mupdate m e p v) e' = mlookup m e' := by
  induction m with
  | nil => simp [mupdate, mlookup, h]
  | cons x rest ih =>
    obtain ⟨a, b, c⟩ := x
    by_cases ha : a = e
    · subst ha; simp [mupdate, mlookup, h]
    · simp [mupdate, mlookup, ha, ih]

/-- A stream head pinning `e` at exactly `v` becomes the fallback of
`lastAgree`. -/
theorem lastAgree_cons_agree (e v q : String)
    (rest : List (String × String × String)) :
    lastAgree e v ((q, e, v) :: rest) = some ((lastAgree e v rest).getD q) := by
  cases h : lastAgree e v rest <;> simp [lastAgree, h]

/-- A stream head not pinning `e` at `v` is invisible to `lastAgree`. -/
theorem lastAgree_cons_ne (e v q n w : String) (h : ¬(n = e ∧ w = v))
    (rest : List (String × String × String)) :
    lastAgree e v ((q, n, w) :: rest) = lastAgree e v rest := by
  cases hc : lastAgree e v rest <;> simp [lastAgree, hc, h]

/-- The version-map invariant of the scan, over a flat pin stream: for
every name `e`, the entry after replaying the stream holds the first
version assigned to `e` (the one already in the map, else the first one
the stream pins), paired with the path of the *last* manifest that
pinned `e` at exactly that version. -/
theorem mlookup_runFlat (e : String) :
    ∀ (es : List (String × String × String)) (st : ScanState),
      mlookup (runFlat st es).m e =
        match mlookup st.m e with
        | some (p, v) => some ((lastAgree e v es).getD p, v)
        | none =>
          match firstVer e es with
          | none => none
          | some v => some ((lastAgree e v es).getD "", v) := by
  intro es
  induction es with
  | nil =>
    intro st
    cases h : mlookup st.m e with
    | none => simp [runFlat, h, firstVer]
    | some pv => obtain ⟨p, v⟩ := pv; simp [runFlat, h, lastAgree]
  | cons hd rest ih =>
    obtain ⟨q, n, w⟩ := hd
    intro st
    simp only [runFlat]
    rw [ih]
    by_cases he : n = e
    · subst he
      cases hm : mlookup st.m n with
      | some pv =>
        obtain ⟨p0, v0⟩ := pv
        by_cases hv : v0 = w
        · subst hv
          simp only [procEntry, hm, ne_eq, not_true_eq_false, if_neg,
            not_false_eq_true, if_true, reduceIte]
          rw [mlookup_mupdate_self, lastAgree_cons_agree]
          simp
        · simp only [procEntry, hm, ne_eq, hv, not_false_eq_true, if_true,
            reduceIte]
          rw [lastAgree_cons_ne]
          intro hc
          exact hv hc.2.symm
      | none =>
        simp only [procEntry, hm]
        rw [mlookup_mupdate_self]
        have hfv : firstVer n ((q, n, w) :: rest) = some w := by
          simp [firstVer]
        rw [hfv]
        dsimp only
        rw [lastAgree_cons_agree]
        simp
    · have hproc : mlookup (procEntry q st (n, DepVal.str w)).m e =
          mlookup st.m e := by
        simp only [procEntry]
        cases hm : mlookup st.m n with
        | some pv =>
          obtain ⟨p0, v0⟩ := pv
          by_cases hv : v0 = w
          · subst hv
            simp only [ne_eq, not_true_eq_false, reduceIte]
            exact mlookup_mupdate_ne st.m n q v0 e he
          · simp [hv]
        | none => exact mlookup_mupdate_ne st.m n q w e he
      rw [hproc]
      have hfv : firstVer e ((q, n, w) :: rest) = firstVer e rest := by
        simp [firstVer, he]
      rw [hfv]
      cases hst : mlookup st.m e with
      | some pv =>
        obtain ⟨p, v⟩ := pv
        dsimp only
        rw [lastAgree_cons_ne]
        intro hc
        exact he hc.1
      | none =>
        cases hf : firstVer e rest with
        | none => rfl
        | some v =>
          dsimp only
          rw [lastAgree_cons_ne]
          intro hc
          exact he hc.1

/-- One table's loop equals replaying its flat pin stream. -/
theorem procTable_eq_runFlat (p : String) :
    ∀ (entries : List (String × DepVal)) (st : ScanState),
      procTable p st entries = runFlat st (flatEntries p entries) := by
  intro entries
  induction entries with
  | nil => intro st; rfl
  | cons ev rest ih =>
    intro st
    obtain ⟨e, dv⟩ := ev
    cases dv with
    | str v =>
      simp only [procTable, List.foldl_cons, flatEntries, runFlat]
      exact ih (procEntry p st (e, DepVal.str v))
    | table =>
      simp only [procTable, List.foldl_cons, flatEntries]
      have hsk : procEntry p st (e, DepVal.table) = st := rfl
      rw [hsk]
      exact ih st

/-- Replaying a concatenated pin stream composes. -/
theorem runFlat_append :
    ∀ (a b : List (String × String × String)) (st : ScanState),
      runFlat st (a ++ b) = runFlat (runFlat st a) b := by
  intro a
  induction a with
  | nil => intro b st; rfl
  | cons hd rest ih =>
    intro b st
    obtain ⟨p, e, v⟩ := hd
    simp only [List.cons_append, runFlat]
    exact ih b (procEntry p st (e, DepVal.str v))

/-- A successfully processed manifest advances the state by its flat
pin stream. -/
theorem procFile_ok (st : ScanState) (f : Manifest) (st' : ScanState)
    (h : procFile st f = Except.ok st') : st' = runFlat st (flatFile f) := by
  cases hds : f.dependencies with
  | none => simp [procFile, hds] at h
  | some ds =>
    cases hdev : f.devDependencies with
    | none =>
      simp only [procFile, hds, hdev, Except.ok.injEq] at h
      rw [← h, flatFile, hds, hdev]
      simp only [Option.getD_some, Option.getD_none, flatEntries,
        List.append_nil]
      exact procTable_eq_runFlat f.path ds st
    | some dds =>
      simp only [procFile, hds, hdev, Except.ok.injEq] at h
      rw [← h, flatFile, hds, hdev]
      simp only [Option.getD_some]
      rw [runFlat_append, ← procTable_eq_runFlat, ← procTable_eq_runFlat]

/-- A successful whole scan equals replaying the concatenated flat pin
stream of all manifests. -/
theorem runFiles_ok :
    ∀ (files : List Manifest) (st st' : ScanState),
      runFiles st files = Except.ok st' →
      st' = runFlat st (flatFiles files) := by
  intro files
  induction files with
  | nil =>
    intro st st' h
    simp only [runFiles, Except.ok.injEq] at h
    rw [← h]
    rfl
  | cons f fs ih =>
    intro st st' h
    cases hf : procFile st f with
    | error e => simp [runFiles, hf] at h
    | ok st1 =>
      simp only [runFiles, hf] at h
      rw [ih st1 st' h, procFile_ok st f st1 hf, flatFiles, runFlat_append]

/-- C8 (counterexample): after scanning `a/Cargo.toml` (`x = "1"`),
`b/Cargo.toml` (`x = "1"`) and `c/Cargo.toml` (`x = "2"`), the version
map holds the pair (`b/Cargo.toml`, `"1"`) — the `else` branch of the
scan re-assigns `m[e] = [p, v]` even when the name is already present
with the same version — so the conflict line against `c/Cargo.toml`
names `b/Cargo.toml`, not the first-seen manifest `a/Cargo.toml`, on
its left side. -/
theorem c8_counterexample :
    checkDupDep [manifestA, manifestB, manifestC] =
      Except.ok { m := [("x", "b/Cargo.toml", "1")],
                  out := ["dup! b/Cargo.toml x=1 | c/Cargo.toml x=2"] } ∧
    "b/Cargo.toml" ≠ "a/Cargo.toml" := by
  constructor
  · rfl
  · decide

/-- C8 (amended): throughout the scan, the version map sends every
dependency name seen in a plain-string pin to the pair (path of the
most recent manifest that pinned it at the first-seen version, the
first-seen version string); the version component is always the
first seen, but the path component is only the latest agreeing
manifest, so a conflict line's left side names the first-seen version
yet possibly a later manifest. -/
theorem c8_amended_version_map (files : List Manifest) (st' : ScanState)
    (h : checkDupDep files = Except.ok st') (e : String) :
    mlookup st'.m e =
      match firstVer e (flatFiles files) with
      | none => none
      | some v => some ((lastAgree e v (flatFiles files)).getD "", v) := by
  rw [runFiles_ok files ⟨[], []⟩ st' h, mlookup_runFlat]
  rfl

/-- Witness for C8's amended statement: two manifests agreeing on
`x = "1"`; the map ends at (`b/Cargo.toml`, `"1"`) — the last agreeing
path with the first-seen version. -/
theorem c8_witness :
    mlookup ({ m := [("x", "b/Cargo.toml", "1")], out := [] } : ScanState).m
        "x" =
      match firstVer "x" (flatFiles [manifestA, manifestB]) with
      | none => none
      | some v =>
        some ((lastAgree "x" v (flatFiles [manifestA, manifestB])).getD "", v) :=
  c8_amended_version_map [manifestA, manifestB]
    { m := [("x", "b/Cargo.toml", "1")], out := [] } rfl "x"

end CheckDupDep

/-- Reading the big-endian encoding back recovers the value modulo
`256 ^ n`, so `toBytesBE 32` is indeed the 32-byte big-endian encoding
of any value below `2 ^ 256`. -/
theorem fromBytesBE_toBytesBE : ∀ (n v : Nat),
    fromBytesBE (toBytesBE n v) = v % 256 ^ n := by
  intro n
  induction n with
  | zero => intro v; simp [toBytesBE, fromBytesBE, Nat.mod_one]
  | succ k ih =>
    intro v
    have hsplit : fromBytesBE (toBytesBE k (v / 256) ++ [v % 256]) =
        fromBytesBE (toBytesBE k (v / 256)) * 256 + v % 256 := by
      simp [fromBytesBE, List.foldl_append]
    rw [toBytesBE, hsplit, ih]
    rw [Nat.pow_succ, mul_comm (256 ^ k) 256, Nat.mod_mul]
    ring
